import Mathlib

/-!
Verification of the table segmentation and field-mapping pipeline
(`pdf-to-excel.py`, `excel-to-json.py`, `extract_tables.py`).

The source is Python; the embedding models cells as nullable strings
(`Option String`), grids as lists of rows, and typed scalars as the
`Value` inductive below.  Python's `int(...)` / `float(...)` parsers are
modelled for the decimal forms the pipeline feeds them (optional sign,
digit runs, a single decimal point); exotic Python literal forms
(underscore separators, exponents, inf/nan literals) are outside the
cell vocabulary of this report format and are not modelled.
-/

/-- Whitespace characters stripped by Python's `str.strip()`. -/
def isPySpace (c : Char) : Bool :=
  c = ' ' || c = '\t' || c = '\n' || c = '\r' || c = '\x0b' || c = '\x0c'

/-- Python `str.strip()`: remove leading and trailing whitespace. -/
def pyStrip (s : String) : String :=
  ⟨((s.data.dropWhile isPySpace).reverse.dropWhile isPySpace).reverse⟩

/-- Python `str.lower()` (ASCII case mapping suffices for the keywords used). -/
def toLowerStr (s : String) : String := ⟨s.data.map Char.toLower⟩

/-- Python `str.upper()` (ASCII case mapping suffices for the keywords used). -/
def toUpperStr (s : String) : String := ⟨s.data.map Char.toUpper⟩

/-- Python `str.replace(',', '')`. -/
def stripCommas (s : String) : String := ⟨s.data.filter (fun c => c ≠ ',')⟩

/-- Python `str.replace(',', '').replace(' ', '')`. -/
def stripCommasSpaces (s : String) : String :=
  ⟨s.data.filter (fun c => c ≠ ',' && c ≠ ' ')⟩

/-- Python `'.' in s`. -/
def containsDot (s : String) : Bool := s.data.contains '.'

/-- Value of a run of decimal digits. -/
def digitsVal (cs : List Char) : Nat :=
  cs.foldl (fun a c => 10 * a + (c.toNat - 48)) 0

/-- Python `int(s)` on a stripped string: optional sign then a nonempty digit run. -/
def pyInt (s : String) : Option Int :=
  match s.data with
  | [] => none
  | '+' :: rest =>
      if rest ≠ [] && rest.all Char.isDigit then some (digitsVal rest) else none
  | '-' :: rest =>
      if rest ≠ [] && rest.all Char.isDigit then some (-(digitsVal rest : Int)) else none
  | cs =>
      if cs.all Char.isDigit then some (digitsVal cs) else none

/-- Unsigned part of Python `float(s)`: `digits '.' digits` with at least one
digit overall, returned as (scaled mantissa, power-of-ten denominator). -/
def pyFloatParts (cs : List Char) : Option (Nat × Nat) :=
  let intPart := cs.takeWhile Char.isDigit
  match cs.dropWhile Char.isDigit with
  | '.' :: fracPart =>
      if fracPart.all Char.isDigit && (intPart ≠ [] || fracPart ≠ []) then
        some (digitsVal intPart * 10 ^ fracPart.length + digitsVal fracPart,
              10 ^ fracPart.length)
      else none
  | _ => none

/-- Python `float(s)` on a stripped string containing a decimal point,
with the exact decimal value as a rational. -/
def pyFloat (s : String) : Option ℚ :=
  match s.data with
  | [] => none
  | '+' :: rest => (pyFloatParts rest).map (fun p => mkRat p.1 p.2)
  | '-' :: rest => (pyFloatParts rest).map (fun p => mkRat (-(p.1 : Int)) p.2)
  | cs => (pyFloatParts cs).map (fun p => mkRat p.1 p.2)

/-- Typed scalar values produced by the normalizers (JSON int/float/string/null). -/
inductive Value where
  | int (n : Int)
  | float (q : ℚ)
  | str (s : String)
  | null
deriving DecidableEq, Repr, Inhabited

/-- The `try: ... int/float ... except ValueError` body shared by both
normalizers: float parse when a dot is present, else int parse. -/
def tryNumber (u : String) : Option Value :=
  if containsDot u then (pyFloat u).map Value.float
  else (pyInt u).map Value.int

/-- `parse_value` from `excel-to-json.py`: normalize one nullable cell. -/
def parse_value (val : Option String) : Value :=
  match val with
  | none => Value.null
  | some s =>
      let valStr := pyStrip s
      if valStr = "" || toLowerStr valStr = "nan" then Value.null
      else
        let valStr2 := stripCommas valStr
        match tryNumber valStr2 with
        | some v => v
        | none => if valStr2 = "" then Value.null else Value.str valStr2

/-- `parse_number` from `extract_tables.py`: normalize one recognized token. -/
def parse_number (s : String) : Value :=
  if s = "" then Value.null
  else
    let t := pyStrip s
    if t = "" || toLowerStr t = "null" || toLowerStr t = "none" ||
        toLowerStr t = "" || toLowerStr t = "-" || toLowerStr t = "n/a" then Value.null
    else
      let u := stripCommasSpaces t
      match tryNumber u with
      | some v => v
      | none =>
          if u.data.head? = some '"' && u.data.getLast? = some '"' then Value.str u
          else Value.null

/-! ### Row model and the section segmenter (`pdf-to-excel.py`, `extract_pdf_to_excel`) -/

/-- One extracted table row: an ordered sequence of nullable cell strings. -/
abbrev Row := List (Option String)

/-- `needle` is an initial segment of `hay`. -/
def leadsWith : List Char → List Char → Bool
  | [], _ => true
  | _ :: _, [] => false
  | a :: as, b :: bs => a = b && leadsWith as bs

/-- Python's `needle in hay` on strings, over character lists. -/
def occursIn (needle hay : List Char) : Bool :=
  match hay with
  | [] => leadsWith needle []
  | _ :: rest => leadsWith needle hay || occursIn needle rest

/-- `str(row[0]) if row[0] else ""`: the leading cell, with `None`/`""` both
collapsing to the empty string (Python falsiness). -/
def firstColSeg (r : Row) : String :=
  match r.getD 0 none with
  | none => ""
  | some s => s

/-- `first_col.replace("*", "").replace(" ", "").upper()` as a character list. -/
def cleanedFirst (r : Row) : List Char :=
  ((firstColSeg r).data.filter (fun c => !(c = '*' || c = ' '))).map Char.toUpper

/-- Finished-product marker test: cleaned leading cell contains both
`"PRODUCTO"` and `"TERMINADO"`. -/
def isProdMarker (r : Row) : Bool :=
  occursIn "PRODUCTO".data (cleanedFirst r) &&
  occursIn "TERMINADO".data (cleanedFirst r)

/-- `" ".join([str(c) for c in row if c])`: truthy cells joined by spaces. -/
def joinedRow (r : Row) : String :=
  String.intercalate " "
    (r.filterMap (fun c =>
      match c with
      | none => none
      | some s => if s = "" then none else some s))

/-- Continuation marker test at index `i`: leading cell contains
`"DESCRIPCION"` (upper-cased), `i > 30`, and `"Quintales"` occurs in the
joined row text. -/
def contCond (r : Row) (i : Nat) : Bool :=
  occursIn "DESCRIPCION".data ((firstColSeg r).data.map Char.toUpper) &&
  decide (30 < i) &&
  occursIn "Quintales".data (joinedRow r).data

/-- Continuation marker as the scan loop actually reaches it: rows matching
the finished-product branch are never tested for the continuation condition. -/
def effCont (r : Row) (i : Nat) : Bool :=
  !(isProdMarker r) && contCond r i

/-- The boundary-scanning loop: tracks `producto_start` (overwritten on every
finished-product marker row) and breaks at the first reachable continuation
marker row. -/
def scanAux : List Row → Nat → Option Nat → Option Nat × Option Nat
  | [], _, ps => (ps, none)
  | r :: rs, i, ps =>
      if isProdMarker r then scanAux rs (i + 1) (some i)
      else if contCond r i then (ps, some i)
      else scanAux rs (i + 1) ps

/-- Section segmentation of the merged table: the three slices
(`analisis_data`, `producto_data`, `continuacion_data`).  Python's
`if producto_start and continuacion_start` treats index `0` as falsy. -/
def segmentRows (rows : List Row) : List Row × List Row × List Row :=
  match scanAux rows 0 none with
  | (some p, some c) =>
      if p = 0 then (rows, [], [])
      else (rows.take p, (rows.drop p).take (c - p), rows.drop c)
  | (some p, none) =>
      if p = 0 then (rows, [], []) else (rows.take p, rows.drop p, [])
  | (none, _) => (rows, [], [])

/-! ### Structured row mappers (`excel-to-json.py`) -/

/-- Separator characters rejected in a `DESCRIPCION` (`'—-_=*\t '`). -/
def isSepChar (c : Char) : Bool :=
  c = '—' || c = '-' || c = '_' || c = '=' || c = '*' || c = '\t' || c = ' '

/-- The row-skipping guard of the analysis/continuation mappers: empty, the
literal `"nan"`, shorter than two characters, or all separator characters. -/
def validDesc (d : String) : Bool :=
  !(decide (d = "") || decide (d = "nan") || decide (d.length < 2)) &&
  !(d.data.all isSepChar)

/-- `str(row[0]).strip() if pd.notna(row[0]) else ""`. -/
def rowDesc (r : Row) : String :=
  match r.getD 0 none with
  | none => ""
  | some s => pyStrip s

/-- `str(row[0]).upper() if pd.notna(row[0]) else ""` containing both
`"PRODUCTO"` and `"TERMINADO"` (analysis-mapper section cutoff; unlike the
segmenter, no strip and no punctuation removal). -/
def prodKeywordA (r : Row) : Bool :=
  let fv : String :=
    match r.getD 0 none with
    | none => ""
    | some s => toUpperStr s
  occursIn "PRODUCTO".data fv.data && occursIn "TERMINADO".data fv.data

/-- Index of the first row matching `prodKeywordA`, or the length if none. -/
def findProductoStartAux : List Row → Nat → Nat
  | [], i => i
  | r :: rs, i => if prodKeywordA r then i else findProductoStartAux rs (i + 1)

/-- `producto_start` of `parse_analisis_from_df` (defaults to `len(df)`). -/
def findProductoStart (df : List Row) : Nat := findProductoStartAux df 0

/-- One `ANALISIS - HOY` indicator. -/
structure HoyIndicator where
  descripcion : String
  brix : Value
  sac : Value
  pza : Value
  color : Value
  ph : Value
  gr : Value
deriving DecidableEq, Repr, Inhabited

/-- One `ANALISIS - HASTA` indicator. -/
structure HastaIndicator where
  descripcion : String
  brix : Value
  sac : Value
  pza : Value
deriving DecidableEq, Repr, Inhabited

/-- HOY indicator of one analysis row: columns BRIX(3), SAC(4), PZA(7),
COLOR(16), PH(18), GR(20). -/
def mkHoy (r : Row) (d : String) : HoyIndicator :=
  { descripcion := d
    brix := parse_value (r.getD 3 none)
    sac := parse_value (r.getD 4 none)
    pza := parse_value (r.getD 7 none)
    color := parse_value (r.getD 16 none)
    ph := parse_value (r.getD 18 none)
    gr := parse_value (r.getD 20 none) }

/-- HASTA indicator of one analysis row: columns BRIX(9), SAC(11), PZA(14). -/
def mkHasta (r : Row) (d : String) : HastaIndicator :=
  { descripcion := d
    brix := parse_value (r.getD 9 none)
    sac := parse_value (r.getD 11 none)
    pza := parse_value (r.getD 14 none) }

/-- The data-row loop of `parse_analisis_from_df`: each valid row appends one
indicator to each of the two groups. -/
def analisisRows : List Row → List HoyIndicator × List HastaIndicator
  | [] => ([], [])
  | r :: rs =>
      let rest := analisisRows rs
      let d := rowDesc r
      if validDesc d then (mkHoy r d :: rest.1, mkHasta r d :: rest.2) else rest

/-- `parse_analisis_from_df`: rows 2 .. `producto_start` of the ANALISIS sheet,
split into the HOY and HASTA indicator lists. -/
def parse_analisis_from_df (df : List Row) : List HoyIndicator × List HastaIndicator :=
  analisisRows ((df.take (findProductoStart df)).drop 2)

/-- `str(df.iloc[row_idx, 0]).strip().upper() if pd.notna(...) else ""`. -/
def firstValPT (r : Row) : String :=
  match r.getD 0 none with
  | none => ""
  | some s => toUpperStr (pyStrip s)

/-- The marker-row scan of `parse_producto_from_df`: `ESTANDAR` substring rows
overwrite `estandar_row_idx`, exact `HOY` rows overwrite `hoy_row_idx`, and the
first exact `HASTA` row after some `HOY` row breaks the scan. -/
def scanPT : List Row → Nat → Option Nat → Option Nat → Option Nat × Option Nat × Option Nat
  | [], _, e, h => (e, h, none)
  | r :: rs, i, e, h =>
      if occursIn "ESTANDAR".data (firstValPT r).data then scanPT rs (i + 1) (some i) h
      else if firstValPT r = "HOY" then scanPT rs (i + 1) e (some i)
      else if firstValPT r = "HASTA" ∧ h ≠ none then (e, h, some i)
      else scanPT rs (i + 1) e h

/-- The seven fixed finished-product metrics and their column indices. -/
def productoColumnMap : List (String × Nat) :=
  [("TOTAL QQ CRUDA", 1), ("TOTAL QQ ESTAN.", 2), ("TOTAL QQ REFIN.", 5),
   ("QQ PRODUCIDOS", 8), ("AZ. EQUIV. (MIEL)", 11), ("AZ. PMR", 14),
   ("TOTAL QUINTALES", 17)]

/-- One `PRODUCTO TERMINADO (AZUCAR)` indicator. -/
structure ProdIndicator where
  descripcion : String
  estandar : Value
  hoy : Value
  hasta : Value
deriving DecidableEq, Repr, Inhabited

/-- `len(df.columns)`: a DataFrame built from ragged rows pads to the longest. -/
def dfCols (df : List Row) : Nat := df.foldr (fun r m => max r.length m) 0

/-- `df.iloc[r, c]` as a nullable cell (missing positions are NaN). -/
def gridGet (df : List Row) (r c : Nat) : Option String := (df.getD r []).getD c none

/-- `parse_producto_from_df`: locate the ESTANDAR / HOY / HASTA rows, then
emit one indicator per fixed metric; any missing marker (or fewer than five
rows) yields the empty list. -/
def parse_producto_from_df (df : List Row) : List ProdIndicator :=
  if df.length < 5 then []
  else
    match scanPT df 0 none none with
    | (some e, some h, some ha) =>
        productoColumnMap.map (fun p =>
          { descripcion := p.1
            estandar := if p.2 < dfCols df then parse_value (gridGet df e p.2) else Value.null
            hoy := if p.2 < dfCols df then parse_value (gridGet df h p.2) else Value.null
            hasta := if p.2 < dfCols df then parse_value (gridGet df ha p.2) else Value.null })
    | _ => []

/-- The eleven fixed continuation metrics and their column indices. -/
def continuacionColMap : List (String × Nat) :=
  [("Quintales", 2), ("% HUM.", 4), ("% CEN.", 6), ("% POL.", 8), ("COLOR", 9),
   ("Mg/kg Vit.\"A\"", 10), ("T. GRANO", 11), ("% C.V", 13), ("FS", 14),
   ("TEMP. ºC.", 15), ("SED.", 16)]

/-- One continuation indicator: the description plus the named metric values. -/
structure ContIndicator where
  descripcion : String
  fields : List (String × Value)
deriving DecidableEq, Repr, Inhabited

/-- `parse_continuacion_from_df`: rows from index 1, same description guard as
the analysis mapper, eleven metric columns bounds-checked per row. -/
def parse_continuacion_from_df (df : List Row) : List ContIndicator :=
  if df.length < 2 then []
  else
    (df.drop 1).filterMap (fun r =>
      let d := rowDesc r
      if validDesc d then
        some { descripcion := d
               fields := continuacionColMap.map (fun p =>
                 (p.1, if p.2 < r.length then parse_value (r.getD p.2 none) else Value.null)) }
      else none)

/-! ### Text token mapper (`extract_tables.py`, `parse_text_based_analisis`) -/

/-- `line.replace('|', ' ')`. -/
def replacePipes (s : String) : String :=
  ⟨s.data.map (fun c => if c = '|' then ' ' else c)⟩

/-- Python `str.split()` (whitespace runs, no empty tokens). -/
def pyWordsAux : List Char → List Char → List String
  | [], acc => if acc = [] then [] else [String.mk acc.reverse]
  | c :: cs, acc =>
      if isPySpace c then
        if acc = [] then pyWordsAux cs []
        else String.mk acc.reverse :: pyWordsAux cs []
      else pyWordsAux cs (c :: acc)

/-- Python `str.split()` on a string. -/
def pyWords (s : String) : List String := pyWordsAux s.data []

/-- Python `s.split('\n')`. -/
def splitNlAux : List Char → List Char → List String
  | [], acc => [String.mk acc.reverse]
  | c :: cs, acc =>
      if c = '\n' then String.mk acc.reverse :: splitNlAux cs []
      else splitNlAux cs (c :: acc)

/-- Python `s.split('\n')` on a string. -/
def splitNl (s : String) : List String := splitNlAux s.data []

/-- `re.match(r'^[\d,\.]+$', token)`: nonempty and all digits/commas/dots. -/
def isNumTok (t : String) : Bool :=
  t.data ≠ [] && t.data.all (fun c => c.isDigit || c = ',' || c = '.')

/-- The token-classification walk: numeric tokens accumulate (comma-stripped)
as values; text tokens before the first numeric token form the description;
text tokens after it are discarded. -/
def classifyTokens : List String → Bool → List String × List String
  | [], _ => ([], [])
  | t :: ts, found =>
      if isNumTok t then
        let rest := classifyTokens ts true
        (rest.1, stripCommas t :: rest.2)
      else
        if found then classifyTokens ts found
        else
          let rest := classifyTokens ts found
          (t :: rest.1, rest.2)

/-- `parse_number(values[i])` when position `i` exists, else null. -/
def valAt (vs : List String) (i : Nat) : Value :=
  if i < vs.length then parse_number (vs.getD i "") else Value.null

/-- HOY indicator from classified values: positions 0,1,2 then 6,7,8. -/
def mkHoyFromValues (d : String) (vs : List String) : HoyIndicator :=
  { descripcion := d
    brix := valAt vs 0
    sac := valAt vs 1
    pza := valAt vs 2
    color := valAt vs 6
    ph := valAt vs 7
    gr := valAt vs 8 }

/-- HASTA indicator from classified values: positions 3,4,5. -/
def mkHastaFromValues (d : String) (vs : List String) : HastaIndicator :=
  { descripcion := d
    brix := valAt vs 3
    sac := valAt vs 4
    pza := valAt vs 5 }

/-- Header keywords that skip a line unless a product word is also present. -/
def skipKeyword (up : String) : Bool :=
  occursIn "ANALISIS".data up.data || occursIn "BRIX".data up.data ||
  occursIn "SAC".data up.data || occursIn "PZA".data up.data ||
  occursIn "COLOR".data up.data || occursIn "PH".data up.data

/-- Product-name words that rescue a data row reusing a header word. -/
def productWord (up : String) : Bool :=
  occursIn "JUGO".data up.data || occursIn "CACHAZA".data up.data ||
  occursIn "MELADURA".data up.data || occursIn "SIROPE".data up.data ||
  occursIn "MAGMA".data up.data || occursIn "RUN".data up.data ||
  occursIn "MASA".data up.data || occursIn "MIEL".data up.data

/-- Per-line processing of `parse_text_based_analisis` up to token
classification: `none` when the line is skipped, otherwise the description
and the classified numeric values. -/
def processLine (l : String) : Option (String × List String) :=
  let l1 := pyStrip l
  if l1 = "" then none
  else
    let l2 := replacePipes l1
    let up := toUpperStr l2
    if occursIn "HOY".data up.data && occursIn "HASTA".data up.data &&
        decide ((pyWords l2).length < 10) then none
    else if skipKeyword up && !productWord up then none
    else
      let tokens := pyWords l2
      if tokens.length < 2 then none
      else
        let cls := classifyTokens tokens false
        if cls.1 = [] then none
        else some (String.intercalate " " cls.1, cls.2)

/-- The line loop of `parse_text_based_analisis`: each retained line appends
one indicator to each group. -/
def analisisLines : List String → List HoyIndicator × List HastaIndicator
  | [] => ([], [])
  | l :: ls =>
      let rest := analisisLines ls
      match processLine l with
      | none => rest
      | some dv => (mkHoyFromValues dv.1 dv.2 :: rest.1, mkHastaFromValues dv.1 dv.2 :: rest.2)

/-- `parse_text_based_analisis`: recognition-path analysis mapper over raw text. -/
def parse_text_based_analisis (text : String) : List HoyIndicator × List HastaIndicator :=
  analisisLines (splitNl (pyStrip text))

/-- The `DESCRIPCION` invariant of the specification: non-empty, at least two
characters, and not composed solely of separator characters. -/
def goodDescB (d : String) : Bool :=
  !(decide (d = "")) && decide (2 ≤ d.length) && !(d.data.all isSepChar)

/-! ### Concrete row sequences used to evaluate the segmenter -/

/-- A row with no content. -/
def fillerRow : Row := [none]

/-- A continuation-header row: leading cell with `DESCRIPCION`, and a
`Quintales` cell. -/
def descQRow : Row := [some "DESCRIPCION Prod", some "Quintales"]

/-- A finished-product marker row. -/
def prodRow : Row := [some "PRODUCTO TERMINADO (AZUCAR)"]

/-- Marker at index 0, continuation header at index 31. -/
def rowsMarkerZero : List Row := prodRow :: (List.replicate 30 fillerRow ++ [descQRow])

/-- Marker at index 1, continuation header at index 31. -/
def rowsMarkerMid : List Row := fillerRow :: prodRow :: (List.replicate 29 fillerRow ++ [descQRow])

/-- Marker at index 2, continuation header at index 32. -/
def rowsMarkerTwo : List Row :=
  fillerRow :: fillerRow :: prodRow :: (List.replicate 29 fillerRow ++ [descQRow])

/-- Marker at index 1, continuation-header rows at indices 2 and 35. -/
def rowsEarlyDesc : List Row :=
  fillerRow :: prodRow :: descQRow :: (List.replicate 32 fillerRow ++ [descQRow])

/-- No finished-product marker anywhere; continuation header at index 31. -/
def rowsNoMarker : List Row := List.replicate 31 fillerRow ++ [descQRow]

/-- A concrete ANALISIS data row matching the specification's end-to-end
example: description in column 0, HOY BRIX/SAC/PZA in columns 3, 4, 7. -/
def rowJugo : Row :=
  [some "Jugo Mixto", none, none, some "85.2", some "14.1", none, none, some "97.3"]

/-! ### Claims about the value normalizer -/

/-- C1 counterexample: the claim fails on the code.  For the recognition-path
normalizer, `parse_number "abc"` has a failing numeric parse on non-empty
trimmed text yet returns null, not the string `"abc"`.  For the structured-path
normalizer, `parse_value ","` has non-empty trimmed text yet returns null, and
`parse_value "a,b"` returns `"ab"`, not the trimmed text verbatim. -/
theorem value_fallback_cex :
    tryNumber "abc" = none ∧ pyStrip "abc" ≠ "" ∧ parse_number "abc" = Value.null ∧
    tryNumber (stripCommas (pyStrip ",")) = none ∧ pyStrip "," ≠ "" ∧
    parse_value (some ",") = Value.null ∧
    tryNumber (stripCommas (pyStrip "a,b")) = none ∧
    parse_value (some "a,b") ≠ Value.str (pyStrip "a,b") := by decide

/-- C1 (amended): when the numeric parse fails, `parse_value` returns the
trimmed, comma-stripped text as a string unless that comma-stripped text is
empty (then null); `parse_number` returns null unless the cleaned text starts
and ends with a double quote, in which case it returns that text as a string.
Neither ever raises. -/
theorem value_fallback_amended :
    (∀ s : String,
      pyStrip s ≠ "" → toLowerStr (pyStrip s) ≠ "nan" →
      tryNumber (stripCommas (pyStrip s)) = none →
      parse_value (some s) =
        (if stripCommas (pyStrip s) = "" then Value.null
         else Value.str (stripCommas (pyStrip s)))) ∧
    (∀ s : String, s ≠ "" →
      pyStrip s ≠ "" →
      toLowerStr (pyStrip s) ∉ ["null", "none", "", "-", "n/a"] →
      tryNumber (stripCommasSpaces (pyStrip s)) = none →
      parse_number s =
        (if (stripCommasSpaces (pyStrip s)).data.head? = some '"' ∧
            (stripCommasSpaces (pyStrip s)).data.getLast? = some '"'
         then Value.str (stripCommasSpaces (pyStrip s)) else Value.null)) := by
  constructor
  · intro s h1 h2 h3
    simp only [parse_value]
    rw [if_neg (by simp [h1, h2]), h3]
  · intro s h0 h1 h2 h3
    simp only [List.mem_cons, List.mem_singleton, not_or] at h2
    obtain ⟨n1, n2, n3, n4, n5, -⟩ := h2
    simp only [parse_number]
    rw [if_neg h0, if_neg (by simp [h1, n1, n2, n3, n4, n5]), h3]
    simp [Bool.and_eq_true, decide_eq_true_eq]

/-- C1 witness: the amended fallback evaluated at concrete inputs. -/
theorem value_fallback_amended_witness :
    parse_value (some "x,y") = Value.str "xy" ∧ parse_number "abc" = Value.null := by
  refine ⟨(value_fallback_amended.1 "x,y" (by decide) (by decide) (by decide)).trans (by decide),
    (value_fallback_amended.2 "abc" (by decide) (by decide) (by decide) (by decide)).trans
      (by decide)⟩

/-! ### Claims about the finished-product mapper -/

/-- C9: a grid with fewer than five rows always yields an empty
finished-product indicator list, markers or not. -/
theorem producto_short_grid_empty (df : List Row) (h : df.length < 5) :
    parse_producto_from_df df = [] := by
  simp [parse_producto_from_df, if_pos h]

/-- C9 witness: a four-row grid containing all three marker rows. -/
theorem producto_short_grid_empty_witness :
    parse_producto_from_df
      [[some "ESTANDAR/DIA"], [some "HOY"], [some "HASTA"], [some "x"]] = [] :=
  producto_short_grid_empty _ (by decide)

/-! ### Claims about the analysis mappers -/

/-- Pairing lemma for the structured analysis loop: both groups grow in
lock-step and paired entries share the description. -/
theorem analisisRows_pairing (l : List Row) :
    (analisisRows l).1.length = (analisisRows l).2.length ∧
    ∀ i, i < (analisisRows l).1.length →
      ((analisisRows l).1.getD i default).descripcion =
      ((analisisRows l).2.getD i default).descripcion := by
  induction l with
  | nil => exact ⟨rfl, fun i h => absurd h (by simp [analisisRows])⟩
  | cons r rs ih =>
      by_cases hv : validDesc (rowDesc r) = true
      · refine ⟨by simp [analisisRows, hv, ih.1], ?_⟩
        intro i hi
        cases i with
        | zero => simp [analisisRows, hv, mkHoy, mkHasta]
        | succ j =>
            simp only [analisisRows, hv, if_true, List.getD_cons_succ]
            refine ih.2 j ?_
            simpa [analisisRows, hv] using hi
      · have hv' : validDesc (rowDesc r) = false := by simpa using hv
        simpa [analisisRows, hv'] using ih

/-- Pairing lemma for the text-based analysis loop. -/
theorem analisisLines_pairing (l : List String) :
    (analisisLines l).1.length = (analisisLines l).2.length ∧
    ∀ i, i < (analisisLines l).1.length →
      ((analisisLines l).1.getD i default).descripcion =
      ((analisisLines l).2.getD i default).descripcion := by
  induction l with
  | nil => exact ⟨rfl, fun i h => absurd h (by simp [analisisLines])⟩
  | cons s ls ih =>
      cases hp : processLine s with
      | none => simpa [analisisLines, hp] using ih
      | some dv =>
          refine ⟨by simp [analisisLines, hp, ih.1], ?_⟩
          intro i hi
          cases i with
          | zero => simp [analisisLines, hp, mkHoyFromValues, mkHastaFromValues]
          | succ j =>
              simp only [analisisLines, hp, List.getD_cons_succ]
              refine ih.2 j ?_
              simpa [analisisLines, hp] using hi

/-- C5: both analysis mappers (structured grid path and recognition text path)
produce HOY and HASTA groups of equal length, and the indicators at equal
positions carry identical descriptions, both being derived from the same
row/line. -/
theorem analisis_matched_pairs (df : List Row) (text : String) :
    ((parse_analisis_from_df df).1.length = (parse_analisis_from_df df).2.length ∧
      ∀ i, i < (parse_analisis_from_df df).1.length →
        ((parse_analisis_from_df df).1.getD i default).descripcion =
        ((parse_analisis_from_df df).2.getD i default).descripcion) ∧
    ((parse_text_based_analisis text).1.length = (parse_text_based_analisis text).2.length ∧
      ∀ i, i < (parse_text_based_analisis text).1.length →
        ((parse_text_based_analisis text).1.getD i default).descripcion =
        ((parse_text_based_analisis text).2.getD i default).descripcion) :=
  ⟨analisisRows_pairing _, analisisLines_pairing _⟩

/-- C5 witness: matched pair at position 0 of a concrete grid, and equal group
lengths for a concrete recognized text. -/
theorem analisis_matched_pairs_witness :
    ((parse_analisis_from_df [[none], [none], [some "Jugo Mixto"]]).1.getD 0 default).descripcion =
      ((parse_analisis_from_df [[none], [none], [some "Jugo Mixto"]]).2.getD 0 default).descripcion ∧
    (parse_text_based_analisis "Miel Final 1 2").1.length =
      (parse_text_based_analisis "Miel Final 1 2").2.length :=
  ⟨(analisis_matched_pairs [[none], [none], [some "Jugo Mixto"]] "").1.2 0 (by decide),
   (analisis_matched_pairs [] "Miel Final 1 2").2.1⟩

/-- C6 counterexample: the text-token analysis mapper emits an indicator whose
DESCRIPCION is the bare separator "-" (from the line `"- 5 6"`), violating the
claimed invariant for "any mapper". -/
theorem text_mapper_desc_cex :
    (parse_text_based_analisis "- 5 6").1.length = 1 ∧
    ((parse_text_based_analisis "- 5 6").1.getD 0 default).descripcion = "-" ∧
    goodDescB "-" = false := by decide

/-- A description accepted by the structured mappers' guard satisfies the
spec invariant. -/
theorem validDesc_good (d : String) (h : validDesc d = true) : goodDescB d = true := by
  simp only [validDesc, Bool.and_eq_true, Bool.not_eq_true', Bool.or_eq_false_iff,
    decide_eq_false_iff_not] at h
  simp only [goodDescB, Bool.and_eq_true, Bool.not_eq_true', decide_eq_false_iff_not,
    decide_eq_true_eq]
  obtain ⟨⟨⟨e1, -⟩, e2⟩, e3⟩ := h
  exact ⟨⟨e1, by omega⟩, e3⟩

/-- Invariant lemma for the structured analysis loop. -/
theorem analisisRows_good (l : List Row) :
    (∀ ind ∈ (analisisRows l).1, goodDescB ind.descripcion = true) ∧
    (∀ ind ∈ (analisisRows l).2, goodDescB ind.descripcion = true) := by
  induction l with
  | nil => simp [analisisRows]
  | cons r rs ih =>
      by_cases hv : validDesc (rowDesc r) = true
      · constructor
        · intro ind hind
          rw [analisisRows] at hind
          simp only [hv, if_true, List.mem_cons] at hind
          rcases hind with rfl | hind
          · exact validDesc_good _ hv
          · exact ih.1 _ hind
        · intro ind hind
          rw [analisisRows] at hind
          simp only [hv, if_true, List.mem_cons] at hind
          rcases hind with rfl | hind
          · exact validDesc_good _ hv
          · exact ih.2 _ hind
      · have hv' : validDesc (rowDesc r) = false := by simpa using hv
        constructor
        · intro ind hind
          rw [analisisRows] at hind
          simp only [hv', if_false, Bool.false_eq_true] at hind
          exact ih.1 _ hind
        · intro ind hind
          rw [analisisRows] at hind
          simp only [hv', if_false, Bool.false_eq_true] at hind
          exact ih.2 _ hind

/-- C6 (amended): every indicator emitted by the structured grid mappers
(analysis HOY and HASTA, finished-product, continuation) has a DESCRIPCION
that is non-empty, at least two characters, and not composed solely of
separator characters; the text-token mapper does not enforce this. -/
theorem grid_mappers_desc_invariant (df : List Row) :
    (∀ ind ∈ (parse_analisis_from_df df).1, goodDescB ind.descripcion = true) ∧
    (∀ ind ∈ (parse_analisis_from_df df).2, goodDescB ind.descripcion = true) ∧
    (∀ ind ∈ parse_producto_from_df df, goodDescB ind.descripcion = true) ∧
    (∀ ind ∈ parse_continuacion_from_df df, goodDescB ind.descripcion = true) := by
  refine ⟨(analisisRows_good _).1, (analisisRows_good _).2, ?_, ?_⟩
  · intro ind hind
    unfold parse_producto_from_df at hind
    split at hind
    · simp at hind
    · split at hind
      · rcases List.mem_map.mp hind with ⟨p, hp, rfl⟩
        revert hp
        have : ∀ p ∈ productoColumnMap, goodDescB p.1 = true := by decide
        intro hp
        exact this p hp
      · simp at hind
  · intro ind hind
    unfold parse_continuacion_from_df at hind
    split at hind
    · simp at hind
    · rcases List.mem_filterMap.mp hind with ⟨r, _, hr⟩
      by_cases hv : validDesc (rowDesc r) = true
      · rw [if_pos hv] at hr
        cases hr
        exact validDesc_good _ hv
      · rw [if_neg hv] at hr
        cases hr

/-- C6 witness: the invariant evaluated on a concrete grid's first emitted
analysis indicator. -/
theorem grid_mappers_desc_invariant_witness :
    goodDescB ((parse_analisis_from_df [[none], [none], [some "Jugo Mixto"]]).1.getD 0
      default).descripcion = true :=
  (grid_mappers_desc_invariant [[none], [none], [some "Jugo Mixto"]]).1 _ (by decide)

/-! ### Claims about the section segmenter -/

/-- `getD` into a `take` below the cut sees the original list. -/
theorem getD_take {α : Type} (l : List α) (n k : Nat) (d : α) (h : k < n) :
    (l.take n).getD k d = l.getD k d := by
  induction l generalizing n k with
  | nil => simp
  | cons a as ih =>
      cases n with
      | zero => omega
      | succ n' =>
          cases k with
          | zero => simp
          | succ k' => simpa using ih n' k' (by omega)

/-- `getD` into a `drop` shifts the index. -/
theorem getD_drop {α : Type} (l : List α) (n k : Nat) (d : α) :
    (l.drop n).getD k d = l.getD (n + k) d := by
  induction l generalizing n with
  | nil => simp
  | cons a as ih =>
      cases n with
      | zero => simp
      | succ n' =>
          have e : n' + 1 + k = (n' + k) + 1 := by omega
          simp [e, ih n']

/-- If no row is a finished-product marker, the scan never changes
`producto_start`. -/
theorem scanAux_no_prod (rows : List Row) : ∀ (i : Nat) (ps : Option Nat),
    (∀ r ∈ rows, isProdMarker r = false) → (scanAux rows i ps).1 = ps := by
  induction rows with
  | nil => intro i ps _; rfl
  | cons r rs ih =>
      intro i ps h
      have hr : isProdMarker r = false := h r (List.mem_cons_self _ _)
      rw [scanAux]
      simp only [hr, Bool.false_eq_true, if_false]
      split
      · rfl
      · exact ih (i + 1) ps (fun x hx => h x (List.mem_cons_of_mem _ hx))

/-- Break characterization when no finished-product marker precedes the first
reachable continuation marker: the accumulator survives unchanged. -/
theorem scanAux_break_noprod (rows : List Row) : ∀ (i : Nat) (ps : Option Nat) (k : Nat),
    k < rows.length →
    effCont (rows.getD k []) (i + k) = true →
    (∀ m, m < k → effCont (rows.getD m []) (i + m) = false) →
    (∀ m, m < k → isProdMarker (rows.getD m []) = false) →
    scanAux rows i ps = (ps, some (i + k)) := by
  induction rows with
  | nil => intro i ps k hk; simp at hk
  | cons r rs ih =>
      intro i ps k hk heff hmin hnp
      cases k with
      | zero =>
          have heff0 : effCont r i = true := by simpa using heff
          have hpr : isProdMarker r = false := by
            simp only [effCont, Bool.and_eq_true, Bool.not_eq_true'] at heff0
            exact heff0.1
          have hcc : contCond r i = true := by
            simp only [effCont, Bool.and_eq_true] at heff0
            exact heff0.2
          rw [scanAux]
          simp [hpr, hcc]
      | succ k' =>
          have hp0 : isProdMarker r = false := by simpa using hnp 0 (by omega)
          have h0 : effCont r i = false := by simpa using hmin 0 (by omega)
          have hc0 : contCond r i = false := by
            simp only [effCont, hp0, Bool.not_false, Bool.true_and] at h0
            exact h0
          rw [scanAux]
          simp only [hp0, hc0, Bool.false_eq_true, if_false]
          have hkk : k' < rs.length := by
            rw [List.length_cons] at hk; omega
          have heff2 : effCont (rs.getD k' []) (i + 1 + k') = true := by
            rw [List.getD_cons_succ] at heff
            have e : i + (k' + 1) = i + 1 + k' := by omega
            rw [e] at heff; exact heff
          have hmin2 : ∀ m, m < k' → effCont (rs.getD m []) (i + 1 + m) = false := by
            intro m hm
            have h := hmin (m + 1) (by omega)
            rw [List.getD_cons_succ] at h
            have e : i + (m + 1) = i + 1 + m := by omega
            rw [e] at h; exact h
          have hnp2 : ∀ m, m < k' → isProdMarker (rs.getD m []) = false := by
            intro m hm
            have h := hnp (m + 1) (by omega)
            rw [List.getD_cons_succ] at h; exact h
          rw [ih (i + 1) ps k' hkk heff2 hmin2 hnp2]
          have e : i + 1 + k' = i + (k' + 1) := by omega
          rw [e]

/-- Break characterization when some finished-product marker precedes the
first reachable continuation marker: `producto_start` ends at the last such
marker, whatever the accumulator held. -/
theorem scanAux_break_prod (rows : List Row) : ∀ (i : Nat) (ps : Option Nat) (k : Nat),
    k < rows.length →
    effCont (rows.getD k []) (i + k) = true →
    (∀ m, m < k → effCont (rows.getD m []) (i + m) = false) →
    ∀ m0, m0 < k → isProdMarker (rows.getD m0 []) = true →
    ∃ m, m < k ∧ isProdMarker (rows.getD m []) = true ∧
      (∀ m', m < m' → m' < k → isProdMarker (rows.getD m' []) = false) ∧
      scanAux rows i ps = (some (i + m), some (i + k)) := by
  induction rows with
  | nil => intro i ps k hk; simp at hk
  | cons r rs ih =>
      intro i ps k hk heff hmin m0 hm0 hprod0
      cases k with
      | zero => omega
      | succ k' =>
          have hk' : k' < rs.length := by
            rw [List.length_cons] at hk; omega
          have heff' : effCont (rs.getD k' []) (i + 1 + k') = true := by
            rw [List.getD_cons_succ] at heff
            have e : i + (k' + 1) = i + 1 + k' := by omega
            rw [e] at heff; exact heff
          have hmin' : ∀ m, m < k' → effCont (rs.getD m []) (i + 1 + m) = false := by
            intro m hm
            have h := hmin (m + 1) (by omega)
            rw [List.getD_cons_succ] at h
            have e : i + (m + 1) = i + 1 + m := by omega
            rw [e] at h; exact h
          by_cases hpr : isProdMarker r = true
          · by_cases hex : ∀ m, m < k' → isProdMarker (rs.getD m []) = false
            · refine ⟨0, by omega, by simpa using hpr, ?_, ?_⟩
              · intro m' hm'0 hm'k
                cases m' with
                | zero => omega
                | succ j => simpa using hex j (by omega)
              · rw [scanAux]
                simp only [hpr, if_true]
                rw [scanAux_break_noprod rs (i + 1) (some i) k' hk' heff' hmin' hex]
                have e : i + 1 + k' = i + (k' + 1) := by omega
                rw [e]
                norm_num
            · push_neg at hex
              obtain ⟨m1, hm1, hm1p⟩ := hex
              have hm1p' : isProdMarker (rs.getD m1 []) = true := by
                cases hb : isProdMarker (rs.getD m1 []) with
                | false => exact absurd hb hm1p
                | true => rfl
              obtain ⟨mt, hmtk, hmtp, hmtlast, hscan⟩ :=
                ih (i + 1) (some i) k' hk' heff' hmin' m1 hm1 hm1p'
              refine ⟨mt + 1, by omega, by simpa using hmtp, ?_, ?_⟩
              · intro m' h1 h2
                cases m' with
                | zero => omega
                | succ j => simpa using hmtlast j (by omega) (by omega)
              · rw [scanAux]
                simp only [hpr, if_true]
                rw [hscan]
                have e1 : i + 1 + mt = i + (mt + 1) := by omega
                have e2 : i + 1 + k' = i + (k' + 1) := by omega
                rw [e1, e2]
          · have hprf : isProdMarker r = false := by simpa using hpr
            have h0 : effCont r i = false := by simpa using hmin 0 (by omega)
            have hc0 : contCond r i = false := by
              simp only [effCont, hprf, Bool.not_false, Bool.true_and] at h0
              exact h0
            cases m0 with
            | zero =>
                rw [List.getD_cons_zero] at hprod0
                rw [hprod0] at hprf
                cases hprf
            | succ j =>
                have hj : j < k' := by omega
                have hjp : isProdMarker (rs.getD j []) = true := by simpa using hprod0
                obtain ⟨mt, hmtk, hmtp, hmtlast, hscan⟩ :=
                  ih (i + 1) ps k' hk' heff' hmin' j hj hjp
                refine ⟨mt + 1, by omega, by simpa using hmtp, ?_, ?_⟩
                · intro m' h1 h2
                  cases m' with
                  | zero => omega
                  | succ j' => simpa using hmtlast j' (by omega) (by omega)
                · rw [scanAux]
                  simp only [hprf, hc0, Bool.false_eq_true, if_false]
                  rw [hscan]
                  have e1 : i + 1 + mt = i + (mt + 1) := by omega
                  have e2 : i + 1 + k' = i + (k' + 1) := by omega
                  rw [e1, e2]

/-- C7: with no finished-product marker row anywhere, the segmenter emits the
entire input as the ANALYSIS slice and no FINISHED_PRODUCT or CONTINUATION
slice, even when a continuation header is present. -/
theorem segment_no_marker_all_analysis (rows : List Row)
    (h : ∀ r ∈ rows, isProdMarker r = false) :
    segmentRows rows = (rows, [], []) := by
  have h1 : (scanAux rows 0 none).1 = none := scanAux_no_prod rows 0 none h
  have hpair : scanAux rows 0 none = ((scanAux rows 0 none).1, (scanAux rows 0 none).2) := rfl
  rw [h1] at hpair
  obtain ⟨c, hc⟩ : ∃ c, scanAux rows 0 none = (none, c) := ⟨(scanAux rows 0 none).2, hpair⟩
  unfold segmentRows
  rw [hc]

/-- C7 witness: 32 rows with a continuation header but no marker. -/
theorem segment_no_marker_all_analysis_witness :
    segmentRows rowsNoMarker = (rowsNoMarker, [], []) :=
  segment_no_marker_all_analysis rowsNoMarker (by decide)

/-- C10: a finished-product marker occurring exactly at row index 0 is
discarded by Python truthiness: the whole input becomes the ANALYSIS slice
and no FINISHED_PRODUCT slice is produced. -/
theorem segment_marker_at_zero_all_analysis (r : Row) (rs : List Row)
    (hr : isProdMarker r = true) (hrs : ∀ x ∈ rs, isProdMarker x = false) :
    segmentRows (r :: rs) = (r :: rs, [], []) := by
  have h2 : scanAux (r :: rs) 0 none = scanAux rs 1 (some 0) := by
    rw [scanAux]
    simp [hr]
  have h1 : (scanAux rs 1 (some 0)).1 = some 0 := scanAux_no_prod rs 1 (some 0) hrs
  have hpair : scanAux rs 1 (some 0) = ((scanAux rs 1 (some 0)).1, (scanAux rs 1 (some 0)).2) :=
    rfl
  rw [h1] at hpair
  obtain ⟨c, hc⟩ : ∃ c, scanAux rs 1 (some 0) = (some 0, c) := ⟨(scanAux rs 1 (some 0)).2, hpair⟩
  unfold segmentRows
  rw [h2, hc]
  cases c <;> simp

/-- C10 witness: marker at index 0 followed by marker-free rows. -/
theorem segment_marker_at_zero_witness :
    segmentRows (prodRow :: [fillerRow, descQRow]) =
      (prodRow :: [fillerRow, descQRow], [], []) :=
  segment_marker_at_zero_all_analysis prodRow [fillerRow, descQRow] (by decide) (by decide)

/-- C2 counterexample: the row sequence `rowsMarkerZero` contains a
finished-product marker (index 0) before a continuation marker (index 31),
yet the segmenter emits empty FINISHED_PRODUCT and CONTINUATION slices — the
marker row stays inside ANALYSIS instead of introducing its section. -/
theorem segment_partition_cex :
    isProdMarker (rowsMarkerZero.getD 0 []) = true ∧
    effCont (rowsMarkerZero.getD 31 []) 31 = true ∧
    (segmentRows rowsMarkerZero).2.1 = [] ∧
    (segmentRows rowsMarkerZero).2.2 = [] := by decide

/-- C2 (amended): when the first reachable continuation marker sits at index
`J` and some finished-product marker occurs at a positive index before `J`,
the segmenter partitions the input into three contiguous, non-overlapping,
order-preserving slices with nothing dropped, the FINISHED_PRODUCT and
CONTINUATION slices non-empty, and each of those slices opening with the
marker row that introduces it. -/
theorem segment_three_sections (rows : List Row) (J : Nat)
    (hJlen : J < rows.length)
    (hJ : effCont (rows.getD J []) J = true)
    (hmin : ∀ m, m < J → effCont (rows.getD m []) m = false)
    (i0 : Nat) (hi0pos : 0 < i0) (hi0J : i0 < J)
    (hi0 : isProdMarker (rows.getD i0 []) = true) :
    ∃ A P C, segmentRows rows = (A, P, C) ∧ A ++ P ++ C = rows ∧
      P ≠ [] ∧ C ≠ [] ∧
      isProdMarker (P.getD 0 []) = true ∧
      effCont (C.getD 0 []) (A.length + P.length) = true := by
  obtain ⟨m, hmJ, hmp, hlast, hscan⟩ :=
    scanAux_break_prod rows 0 none J hJlen (by simpa using hJ)
      (fun mm hmm => by simpa using hmin mm hmm) i0 hi0J hi0
  have hscan' : scanAux rows 0 none = (some m, some J) := by simpa using hscan
  have hm0 : m ≠ 0 := by
    intro h0
    have hf := hlast i0 (by omega) hi0J
    rw [hi0] at hf
    cases hf
  have hA : (rows.take m).length = m := by
    rw [List.length_take]
    omega
  have hP : ((rows.drop m).take (J - m)).length = J - m := by
    rw [List.length_take, List.length_drop]
    omega
  refine ⟨rows.take m, (rows.drop m).take (J - m), rows.drop J, ?_, ?_, ?_, ?_, ?_, ?_⟩
  · unfold segmentRows
    rw [hscan']
    exact if_neg hm0
  · rw [List.append_assoc]
    have h2 : (rows.drop m).drop (J - m) = rows.drop J := by
      rw [List.drop_drop]
      congr 1
      omega
    calc rows.take m ++ ((rows.drop m).take (J - m) ++ rows.drop J)
        = rows.take m ++ rows.drop m := by rw [← h2, List.take_append_drop]
      _ = rows := List.take_append_drop _ _
  · refine List.length_pos.mp ?_
    rw [hP]
    omega
  · refine List.length_pos.mp ?_
    rw [List.length_drop]
    omega
  · rw [getD_take _ _ _ _ (by omega), getD_drop]
    simpa using hmp
  · rw [getD_drop, hA, hP]
    have e1 : m + (J - m) = J := by omega
    have e2 : J + 0 = J := by omega
    rw [e1, e2, hJ]

/-- C2 witness: the amended partition at a marker on index 1 and a
continuation header at index 31. -/
theorem segment_three_sections_witness :
    ∃ A P C, segmentRows rowsMarkerMid = (A, P, C) ∧ A ++ P ++ C = rowsMarkerMid ∧
      P ≠ [] ∧ C ≠ [] ∧
      isProdMarker (P.getD 0 []) = true ∧
      effCont (C.getD 0 []) (A.length + P.length) = true :=
  segment_three_sections rowsMarkerMid 31 (by decide) (by decide) (by decide)
    1 (by decide) (by decide) (by decide)

/-- C3 counterexample: in `rowsEarlyDesc` the first row after the
finished-product marker (index 1) whose leading cell contains `DESCRIPCION`
and whose row contains `Quintales` is index 2, yet the CONTINUATION slice
starts at index 35 — the `i > 30` index guard, not the marker position,
decides the boundary. -/
theorem segment_continuation_start_cex :
    isProdMarker (rowsEarlyDesc.getD 1 []) = true ∧
    occursIn "DESCRIPCION".data
      ((firstColSeg (rowsEarlyDesc.getD 2 [])).data.map Char.toUpper) = true ∧
    occursIn "Quintales".data (joinedRow (rowsEarlyDesc.getD 2 [])).data = true ∧
    (segmentRows rowsEarlyDesc).2.2 = List.drop 35 rowsEarlyDesc ∧
    List.drop 35 rowsEarlyDesc ≠ List.drop 2 rowsEarlyDesc := by decide

/-- C3 (amended): the CONTINUATION slice starts at the first row of index
greater than 30 (not: first row after the finished-product marker) whose
leading cell contains `DESCRIPCION`, whose row contains `Quintales`, and
which is not itself a finished-product marker row — provided a
finished-product marker occurred at a positive index before it. -/
theorem segment_continuation_start (rows : List Row) (J : Nat)
    (hJlen : J < rows.length)
    (hJ : effCont (rows.getD J []) J = true)
    (hmin : ∀ m, m < J → effCont (rows.getD m []) m = false)
    (i0 : Nat) (hi0pos : 0 < i0) (hi0J : i0 < J)
    (hi0 : isProdMarker (rows.getD i0 []) = true) :
    (segmentRows rows).2.2 = rows.drop J := by
  obtain ⟨m, hmJ, hmp, hlast, hscan⟩ :=
    scanAux_break_prod rows 0 none J hJlen (by simpa using hJ)
      (fun mm hmm => by simpa using hmin mm hmm) i0 hi0J hi0
  have hscan' : scanAux rows 0 none = (some m, some J) := by simpa using hscan
  have hm0 : m ≠ 0 := by
    intro h0
    have hf := hlast i0 (by omega) hi0J
    rw [hi0] at hf
    cases hf
  unfold segmentRows
  rw [hscan']
  have hif : (if m = 0 then (rows, ([] : List Row), ([] : List Row))
      else (rows.take m, (rows.drop m).take (J - m), rows.drop J)) =
      (rows.take m, (rows.drop m).take (J - m), rows.drop J) := if_neg hm0
  exact congrArg (fun t => t.2.2) hif

/-- C3 witness: continuation boundary at the first qualifying row (index 32)
for a marker at index 2. -/
theorem segment_continuation_start_witness :
    (segmentRows rowsMarkerTwo).2.2 = List.drop 32 rowsMarkerTwo :=
  segment_continuation_start rowsMarkerTwo 32 (by decide) (by decide) (by decide)
    2 (by decide) (by decide) (by decide)

/-! ### Claims about marker absence in the finished-product mapper -/

/-- If no row's leading value contains `ESTANDAR`, the scan leaves
`estandar_row_idx` unchanged. -/
theorem scanPT_no_est (rows : List Row) : ∀ (i : Nat) (e h : Option Nat),
    (∀ r ∈ rows, occursIn "ESTANDAR".data (firstValPT r).data = false) →
    (scanPT rows i e h).1 = e := by
  induction rows with
  | nil => intro i e h _; rfl
  | cons r rs ih =>
      intro i e h hno
      have hr := hno r (List.mem_cons_self _ _)
      rw [scanPT]
      simp only [hr, Bool.false_eq_true, if_false]
      split
      · exact ih _ _ _ (fun x hx => hno x (List.mem_cons_of_mem _ hx))
      · split
        · rfl
        · exact ih _ _ _ (fun x hx => hno x (List.mem_cons_of_mem _ hx))

/-- If no row's leading value is exactly `HOY`, the scan leaves
`hoy_row_idx` unchanged. -/
theorem scanPT_no_hoy (rows : List Row) : ∀ (i : Nat) (e h : Option Nat),
    (∀ r ∈ rows, firstValPT r ≠ "HOY") →
    (scanPT rows i e h).2.1 = h := by
  induction rows with
  | nil => intro i e h _; rfl
  | cons r rs ih =>
      intro i e h hno
      have hr := hno r (List.mem_cons_self _ _)
      rw [scanPT]
      by_cases hest : occursIn "ESTANDAR".data (firstValPT r).data = true
      · rw [if_pos hest]
        exact ih _ _ _ (fun x hx => hno x (List.mem_cons_of_mem _ hx))
      · rw [if_neg hest, if_neg hr]
        by_cases hha : firstValPT r = "HASTA" ∧ h ≠ none
        · rw [if_pos hha]
        · rw [if_neg hha]
          exact ih _ _ _ (fun x hx => hno x (List.mem_cons_of_mem _ hx))

/-- If every `HASTA` row is preceded by no `HOY` row (and the incoming
accumulator is still empty at such rows), the scan never breaks:
`hasta_row_idx` stays `none`. -/
theorem scanPT_no_hasta (rows : List Row) : ∀ (i : Nat) (e h : Option Nat),
    (∀ k, k < rows.length → firstValPT (rows.getD k []) = "HASTA" →
      (h = none ∧ ∀ m, m < k → firstValPT (rows.getD m []) ≠ "HOY")) →
    (scanPT rows i e h).2.2 = none := by
  induction rows with
  | nil => intro i e h _; rfl
  | cons r rs ih =>
      intro i e h hyp
      rw [scanPT]
      by_cases hest : occursIn "ESTANDAR".data (firstValPT r).data = true
      · rw [if_pos hest]
        apply ih
        intro k hk hH
        obtain ⟨h1, h2⟩ := hyp (k + 1) (by rw [List.length_cons]; omega) (by simpa using hH)
        exact ⟨h1, fun m hm => by simpa using h2 (m + 1) (by omega)⟩
      · rw [if_neg hest]
        by_cases hhoy : firstValPT r = "HOY"
        · rw [if_pos hhoy]
          apply ih
          intro k hk hH
          obtain ⟨-, h2⟩ := hyp (k + 1) (by rw [List.length_cons]; omega) (by simpa using hH)
          exact absurd hhoy (by simpa using h2 0 (by omega))
        · rw [if_neg hhoy]
          by_cases hhasta : firstValPT r = "HASTA" ∧ h ≠ none
          · obtain ⟨hH, hne⟩ := hhasta
            obtain ⟨h1, -⟩ := hyp 0 (by rw [List.length_cons]; omega) (by simpa using hH)
            exact absurd h1 hne
          · rw [if_neg hhasta]
            apply ih
            intro k hk hH
            obtain ⟨h1, h2⟩ := hyp (k + 1) (by rw [List.length_cons]; omega) (by simpa using hH)
            exact ⟨h1, fun m hm => by simpa using h2 (m + 1) (by omega)⟩

/-- C4: whenever any of the three marker rows is not found — no leading cell
containing `ESTANDAR`, no leading cell exactly `HOY`, or no leading cell
exactly `HASTA` below which a `HOY` row occurred — the finished-product
mapper returns the empty indicator list. -/
theorem producto_missing_marker_empty (df : List Row)
    (hmiss : (∀ r ∈ df, occursIn "ESTANDAR".data (firstValPT r).data = false) ∨
        (∀ r ∈ df, firstValPT r ≠ "HOY") ∨
        (∀ j, j < df.length → firstValPT (df.getD j []) = "HASTA" →
          ∀ i, i < j → firstValPT (df.getD i []) ≠ "HOY")) :
    parse_producto_from_df df = [] := by
  unfold parse_producto_from_df
  split
  · rfl
  · rcases hscan : scanPT df 0 none none with ⟨e', h', ha'⟩
    rcases hmiss with h1 | h2 | h3
    · have he : (scanPT df 0 none none).1 = none := scanPT_no_est df 0 none none h1
      rw [hscan] at he
      simp only at he
      subst he
      cases h' <;> cases ha' <;> rfl
    · have hh : (scanPT df 0 none none).2.1 = none := scanPT_no_hoy df 0 none none h2
      rw [hscan] at hh
      simp only at hh
      subst hh
      cases e' <;> cases ha' <;> rfl
    · have hha : (scanPT df 0 none none).2.2 = none := by
        apply scanPT_no_hasta
        intro k hk hH
        exact ⟨rfl, fun m hm => h3 k hk hH m hm⟩
      rw [hscan] at hha
      simp only at hha
      subst hha
      cases e' <;> cases h' <;> rfl

/-- C4 witness: a five-row grid where `HASTA` occurs only before the `HOY`
row, so the third marker is never found. -/
theorem producto_missing_marker_empty_witness :
    parse_producto_from_df
      [[some "HASTA"], [some "ESTANDAR/DIA"], [some "HOY"], [some "x"], [some "y"]] = [] :=
  producto_missing_marker_empty _ (Or.inr (Or.inr (by decide)))

/-! ### Claim about the end-to-end analysis example row -/

/-- C8: an ANALYSIS grid whose data row carries "Jugo Mixto" in column 0 and
"85.2", "14.1", "97.3" in columns 3, 4, 7 yields exactly one HOY indicator
with BRIX 85.2, SAC 14.1, PZA 97.3 and COLOR/PH/GR read from columns
16, 18, 20, paired with one HASTA indicator reading BRIX/SAC/PZA from columns
9, 11, 14 of the same row. -/
theorem analisis_example_row (h1 h2 r : Row)
    (k1 : prodKeywordA h1 = false) (k2 : prodKeywordA h2 = false)
    (k3 : prodKeywordA r = false)
    (c0 : r.getD 0 none = some "Jugo Mixto")
    (c3 : r.getD 3 none = some "85.2") (c4 : r.getD 4 none = some "14.1")
    (c7 : r.getD 7 none = some "97.3") :
    parse_analisis_from_df [h1, h2, r] =
      ([{ descripcion := "Jugo Mixto", brix := Value.float (mkRat 852 10),
          sac := Value.float (mkRat 141 10), pza := Value.float (mkRat 973 10),
          color := parse_value (r.getD 16 none), ph := parse_value (r.getD 18 none),
          gr := parse_value (r.getD 20 none) }],
       [{ descripcion := "Jugo Mixto", brix := parse_value (r.getD 9 none),
          sac := parse_value (r.getD 11 none), pza := parse_value (r.getD 14 none) }]) := by
  have hfp : findProductoStart [h1, h2, r] = 3 := by
    unfold findProductoStart
    simp only [findProductoStartAux, k1, k2, k3, Bool.false_eq_true, if_false]
  have hd : rowDesc r = "Jugo Mixto" := by
    unfold rowDesc
    rw [c0]
    decide
  have hv : validDesc "Jugo Mixto" = true := by decide
  unfold parse_analisis_from_df
  rw [hfp]
  show analisisRows [r] = _
  simp only [analisisRows, hd, hv, if_true, mkHoy, mkHasta, c3, c4, c7]
  rfl

/-- C8 witness: the example row evaluated on a concrete grid. -/
theorem analisis_example_row_witness :
    parse_analisis_from_df [[some "ANALISIS"], fillerRow, rowJugo] =
      ([{ descripcion := "Jugo Mixto", brix := Value.float (mkRat 852 10),
          sac := Value.float (mkRat 141 10), pza := Value.float (mkRat 973 10),
          color := Value.null, ph := Value.null, gr := Value.null }],
       [{ descripcion := "Jugo Mixto", brix := Value.null, sac := Value.null,
          pza := Value.null }]) :=
  (analisis_example_row [some "ANALISIS"] fillerRow rowJugo (by decide) (by decide)
    (by decide) (by decide) (by decide) (by decide) (by decide)).trans (by decide)
